import Mathlib

/-!
# Verification of the kek-dex TradingView webhook gateway

A shallow embedding of the webhook trust pipeline of the kek-dex
repository, together with proofs and refutations of the stated
properties of its specification.

Embedded source files:
* `src/app/api/webhooks/[id]/route.ts` — the `POST` handler for
  TradingView webhooks (the gateway pipeline);
* `src/lib/supabase/rateLimiter.ts` — `checkRateLimit`;
* `src/lib/supabase/webhookDatabase.ts` — `getWebhookByApiKey`,
  `logWebhookExecution`, `checkDailyLimit`;
* `src/lib/webhookCrypto.ts` — `hashApiKey`, `verifyHmacSignature`;
* `src/lib/webhookAuth.ts` — `verifyWebhookSignature`,
  `validateWebhookPayload`.

Modelling conventions:
* JavaScript numbers are modelled as `Int`; an absent (`undefined`)
  numeric field is `Option.none`.  A `number` field holding `0` is falsy
  in JavaScript, so truthiness of an optional number is
  `isSome ∧ value ≠ 0`.
* Strings are modelled as `String`; the absent / empty string is `""`
  (both are falsy in JavaScript, and every use in the source only tests
  truthiness or equality).
* `Date.now()` and timestamps are epoch milliseconds (`Int`).
* Asynchronous storage and crypto collaborators are passed in as
  explicit values (`GatewayEnv`), matching the note in the spec that the
  store and executor are external collaborators.
* A thrown JavaScript exception is `Except.error`.
-/

/-! ## JavaScript truthiness helpers -/

/-- Truthiness of a JavaScript string: the empty string is falsy. -/
def truthyStr (s : String) : Bool := s ≠ ""

/-- Truthiness of an optional JavaScript number: `undefined` and `0`
are falsy. -/
def truthyNum (v : Option Int) : Bool :=
  match v with
  | none => false
  | some n => n ≠ 0

/-! ## Data model -/

/-- The TradingView webhook payload (interface `WebhookPayload` in
`route.ts`).  Optional numeric fields are `Option Int`; strings use
`""` for an absent value. -/
structure WebhookPayload where
  action : String
  symbol : String
  quantity : Option Int
  price : Option Int
  orderType : Option String
  stopLoss : Option Int
  takeProfit : Option Int
  apiKey : String
  signature : String
  timestamp : Option Int
  deriving DecidableEq

/-- A stored webhook configuration as returned by `getUserFromApiKey`
(`WebhookConfig` in `webhookDatabase.ts`), restricted to the fields the
`POST` handler reads. -/
structure RouteConfig where
  id : String
  userId : String
  enabled : Bool
  allowedSymbols : List String
  maxOrderSize : Int
  dailyLimit : Int
  requireStopLoss : Bool
  deriving DecidableEq

/-- Outcome of the external order executor
(`WebhookOrderService.executeOrder`).  The `POST` handler classifies a
thrown error by its message contents; we model the three classes. -/
inductive ExecErr where
  | insufficientBalance
  | marketClosed
  | other
  deriving DecidableEq

/-- External collaborators of one `POST` invocation: the resolved
credential, the signature-verification verdict, the rate-limiter
verdict and the executor outcome. -/
structure GatewayEnv where
  config : Option RouteConfig
  sigValid : Bool
  rateOk : Bool
  execResult : Except ExecErr String

/-- One row written to `webhook_logs` by `logWebhookExecution`. -/
structure LogEntry where
  webhookId : String
  logStatus : String
  deriving DecidableEq

/-- The observable outcome of one `POST` invocation: HTTP status, the
`success` flag and `error` string of the JSON body, whether the order
was handed to the external executor, and the `webhook_logs` rows
written. -/
structure GatewayOutcome where
  status : Nat
  success : Bool
  error : Option String
  executorCalled : Bool
  logs : List LogEntry
  deriving DecidableEq

/-! ## The gateway pipeline (`POST` handler in `route.ts`) -/

/-- The replay-window stage of the handler:
`Math.abs(Date.now() - payload.timestamp * 1000) > 5 * 60 * 1000`.
When `timestamp` is absent, `payload.timestamp * 1000` is `NaN` in
JavaScript and every comparison with `NaN` is `false`, so the stage
does not reject. -/
def tsStale (ts : Option Int) (now : Int) : Bool :=
  match ts with
  | none => false
  | some t => decide (5 * 60 * 1000 < (now - t * 1000).natAbs)

/-- `const orderValue = payload.quantity * (payload.price || 0)`.
This line is only reached when `quantity` is truthy, and `price || 0`
evaluates to `0` when `price` is absent or zero. -/
def orderValue (p : WebhookPayload) : Int :=
  p.quantity.getD 0 * p.price.getD 0

/-- The per-order size stage of the handler:
`webhookConfig.maxOrderSize && orderValue > webhookConfig.maxOrderSize`
(a `maxOrderSize` of `0` is falsy and disables the check). -/
def sizeCheckDenies (c : RouteConfig) (p : WebhookPayload) : Bool :=
  decide (c.maxOrderSize ≠ 0 ∧ c.maxOrderSize < orderValue p)

/-- The `POST /api/webhooks/tradingview` handler, stage by stage in
source order.  `allowedSymbols` is always an array after conversion
(`db.allowed_symbols || []`), and a JavaScript array is always truthy,
so its guard reduces to the length test. -/
def postTradingView (env : GatewayEnv) (p : WebhookPayload) (now : Int) :
    GatewayOutcome :=
  if ¬ (truthyStr p.action ∧ truthyStr p.symbol ∧
        truthyNum p.quantity ∧ truthyStr p.apiKey) then
    ⟨400, false, some "Missing required fields: action, symbol, quantity, or apiKey",
      false, []⟩
  else if tsStale p.timestamp now then
    ⟨401, false, some "Request timestamp is too old or invalid", false, []⟩
  else if ¬ env.sigValid then
    ⟨401, false, some "Invalid signature or API key", false, []⟩
  else
    match env.config with
    | none => ⟨401, false, some "Invalid API key", false, []⟩
    | some c =>
      if ¬ c.enabled then
        ⟨403, false, some "Webhook is disabled", false, []⟩
      else if ¬ env.rateOk then
        ⟨429, false, some "Rate limit exceeded. Please try again later.", false, []⟩
      else if 0 < c.allowedSymbols.length ∧ ¬ p.symbol ∈ c.allowedSymbols then
        ⟨403, false, some "Symbol is not allowed for this webhook", false, []⟩
      else if sizeCheckDenies c p then
        ⟨403, false, some "Order size exceeds maximum limit", false, []⟩
      else if c.requireStopLoss ∧ ¬ truthyNum p.stopLoss then
        ⟨400, false, some "Stop loss is required for this webhook configuration",
          false, []⟩
      else
        match env.execResult with
        | .ok _ =>
          ⟨200, true, none, true, [⟨c.id, "success"⟩]⟩
        | .error e =>
          match e with
          | .insufficientBalance =>
            ⟨400, false, some "Insufficient balance to execute order", true,
              [⟨c.id, "failed"⟩]⟩
          | .marketClosed =>
            ⟨400, false, some "Market is closed", true, [⟨c.id, "failed"⟩]⟩
          | .other =>
            ⟨500, false, some "Internal server error", true, [⟨c.id, "failed"⟩]⟩

/-! ## `validateWebhookPayload` (`webhookAuth.ts`)

Exported by the repository but never called by the `POST` handler; it
is the validity predicate the repository itself defines. -/

/-- `validateWebhookPayload`: returns `true` exactly when the payload
passes every check of the source function. -/
def validateWebhookPayload (p : WebhookPayload) : Bool :=
  if ¬ truthyStr p.action then false
  else if ¬ p.action ∈ ["buy", "sell", "close"] then false
  else if ¬ truthyStr p.symbol then false
  else if ¬ (p.quantity.isSome = true ∧ 0 < p.quantity.getD 0) then false
  else if ¬ truthyStr p.apiKey then false
  else if ¬ truthyStr p.signature then false
  else if ¬ truthyNum p.timestamp then false
  else if (p.orderType.getD "" ≠ "" ∧
           ¬ p.orderType.getD "" ∈ ["market", "limit", "stop"]) then false
  else if (p.orderType.getD "" = "limit" ∧ ¬ truthyNum p.price) then false
  else true

/-! ## `checkDailyLimit` (`webhookDatabase.ts`)

Defined by the repository but never called by the `POST` handler. -/

/-- One row of `webhook_logs` as read back by `checkDailyLimit`. -/
structure LogRow where
  logStatus : String
  quantity : Option Int
  price : Option Int
  createdAt : Int
  deriving DecidableEq

/-- `checkDailyLimit`: sums `quantity * price` over the rows of the
current day with status `success` and compares the sum to the
`daily_limit` of the webhook.  Returns `(withinLimit, currentUsage)`.
Note that the notional of the candidate order is not part of the
comparison. -/
def checkDailyLimit (dailyLimit : Int) (logs : List LogRow) (todayStart : Int) :
    Bool × Int :=
  let todays := logs.filter
    (fun l => l.logStatus == "success" && decide (todayStart ≤ l.createdAt))
  let currentUsage := todays.foldl
    (fun acc l => acc + l.quantity.getD 0 * l.price.getD 0) 0
  (decide (currentUsage < dailyLimit), currentUsage)

/-! ## The rate limiter (`checkRateLimit` in `rateLimiter.ts`)

One `rate_limits` row per `(user_id, api_key, window_type,
window_start)`.  The source iterates the three windows in the order
minute, hour, day; for each it looks up a row with
`window_start >= now - duration`, denies immediately when
`request_count >= limit`, increments an existing row, or inserts a
fresh row with count 1. -/

/-- The `window_type` column. -/
inductive WindowKind where
  | minute
  | hour
  | day
  deriving DecidableEq

/-- Position of a window kind in the order the source checks them. -/
def kindIdx : WindowKind → Nat
  | .minute => 0
  | .hour => 1
  | .day => 2

/-- Window durations in milliseconds, as in the `windows` array. -/
def windowDuration : WindowKind → Int
  | .minute => 60 * 1000
  | .hour => 60 * 60 * 1000
  | .day => 24 * 60 * 60 * 1000

/-- `RateLimitConfig`, with the source `DEFAULT_RATE_LIMITS` defaults
(10/minute, 100/hour, 1000/day) available as `defaultRateLimits`. -/
structure RateLimitConfig where
  maxRequestsPerMinute : Nat
  maxRequestsPerHour : Nat
  maxRequestsPerDay : Nat
  deriving DecidableEq

def defaultRateLimits : RateLimitConfig := ⟨10, 100, 1000⟩

/-- The per-window limit from the `windows` array. -/
def kindLimit (cfg : RateLimitConfig) : WindowKind → Nat
  | .minute => cfg.maxRequestsPerMinute
  | .hour => cfg.maxRequestsPerHour
  | .day => cfg.maxRequestsPerDay

/-- One row of the `rate_limits` table. -/
structure RateRow where
  userId : String
  apiKey : String
  windowType : WindowKind
  windowStart : Int
  requestCount : Nat
  deriving DecidableEq

/-- The row filter used by both the select and the update:
`user_id = u AND api_key = k AND window_type = kind AND
window_start >= threshold`. -/
def rowMatches (u k : String) (kind : WindowKind) (threshold : Int)
    (r : RateRow) : Bool :=
  r.userId == u && r.apiKey == k && r.windowType == kind &&
    decide (threshold ≤ r.windowStart)

/-- The `.single()` select: the first row satisfying the filter.  (In
every state this pipeline produces, at most one row per kind is within
its window, so `find?` agrees with `single`.) -/
def findActive (rows : List RateRow) (u k : String) (kind : WindowKind)
    (threshold : Int) : Option RateRow :=
  rows.find? (rowMatches u k kind threshold)

/-- The `.update(\x7b request_count: existing.request_count + 1 \x7d)`
call: every row satisfying the filter receives the count
`existing.request_count + 1`. -/
def bumpCount (rows : List RateRow) (u k : String) (kind : WindowKind)
    (threshold : Int) (newCount : Nat) : List RateRow :=
  rows.map (fun r =>
    if rowMatches u k kind threshold r then
      { r with requestCount := newCount }
    else r)

/-- One iteration of the `for (const window of windows)` loop: returns
`false` and the unchanged table on denial, otherwise `true` and the
table with the window incremented or created. -/
def rateWindowStep (limit : Nat) (kind : WindowKind) (u k : String)
    (now : Int) (rows : List RateRow) : Bool × List RateRow :=
  match findActive rows u k kind (now - windowDuration kind) with
  | some existing =>
    if limit ≤ existing.requestCount then
      (false, rows)
    else
      (true, bumpCount rows u k kind (now - windowDuration kind)
        (existing.requestCount + 1))
  | none =>
    (true, rows ++ [⟨u, k, kind, now, 1⟩])

/-- `checkRateLimit`: the three loop iterations in source order.  The
first component is the window kind whose limit denied the request
(`none` when the request is allowed); the source returns the boolean
`(result).1.isNone` and logs the kind on denial. -/
def checkRateLimit (cfg : RateLimitConfig) (u k : String) (now : Int)
    (rows : List RateRow) : Option WindowKind × List RateRow :=
  match rateWindowStep (kindLimit cfg .minute) .minute u k now rows with
  | (false, rows₁) => (some .minute, rows₁)
  | (true, rows₁) =>
    match rateWindowStep (kindLimit cfg .hour) .hour u k now rows₁ with
    | (false, rows₂) => (some .hour, rows₂)
    | (true, rows₂) =>
      match rateWindowStep (kindLimit cfg .day) .day u k now rows₂ with
      | (false, rows₃) => (some .day, rows₃)
      | (true, rows₃) => (none, rows₃)

/-- The boolean the source function actually returns. -/
def checkRateLimitOk (cfg : RateLimitConfig) (u k : String) (now : Int)
    (rows : List RateRow) : Bool × List RateRow :=
  let r := checkRateLimit cfg u k now rows
  (r.1.isNone, r.2)

/-- Run a sequence of calls at the given times, collecting the boolean
verdict of each call. -/
def runCalls (cfg : RateLimitConfig) (u k : String) (times : List Int)
    (rows : List RateRow) : List Bool × List RateRow :=
  match times with
  | [] => ([], rows)
  | t :: ts =>
    let r := checkRateLimitOk cfg u k t rows
    let rest := runCalls cfg u k ts r.2
    (r.1 :: rest.1, rest.2)

/-- The rows still inside their own window at time `t`. -/
def eraseStale (t : Int) (rows : List RateRow) : List RateRow :=
  rows.filter (fun r => decide (t - windowDuration r.windowType ≤ r.windowStart))

/-! ### The rate-limit scenarios of C4

Schedules that exercise each window kind of the default configuration
independently: bursts of at most 10 calls per minute window and at most
100 per hour window, so that only the window under test can deny. -/

/-- One hour-epoch of the day scenario: 10 bursts of 10 simultaneous
calls, bursts 61 s apart, starting at `e`. -/
def epochSched (e : Int) : List Int :=
  (List.range 100).map (fun i => e + ((i / 10 : Nat) : Int) * 61000)

/-- The two trailing calls of the day scenario, in a fresh minute and
hour window but inside the day window. -/
def rlFinalTimes : List Int := [36600000, 36600000]

/-- 13 simultaneous calls: the minute limit trips from call 11 on. -/
def minuteTimes : List Int := List.replicate 13 0

/-- 100 calls in bursts within one hour, then two more in the same hour
window: the hour limit trips from call 101 on. -/
def hourTimes : List Int := epochSched 0 ++ [610000, 610000]

/-- 1000 calls in ten hour-epochs within one day, then two more in the
same day window: the day limit trips from call 1001 on. -/
def dayTimes : List Int :=
  epochSched 0 ++ (epochSched 3660000 ++ (epochSched 7320000 ++
    (epochSched 10980000 ++ (epochSched 14640000 ++ (epochSched 18300000 ++
    (epochSched 21960000 ++ (epochSched 25620000 ++ (epochSched 29280000 ++
    (epochSched 32940000 ++ rlFinalTimes)))))))))

/-- The live-row summary between epochs: just the day window row. -/
def dayRowOnly (c : Nat) : List RateRow :=
  [⟨"u", "k", .day, 0, c⟩]

/-! ## Canonical signing message and HMAC verification

`verifyHmacSignature` (`webhookCrypto.ts`) drops the `signature` field,
sorts the remaining keys, renders `key=value` pairs joined by `&`, and
compares the provided signature with the HMAC hex digest using the
Node primitive `crypto.timingSafeEqual`.  A JavaScript object is modelled as an
insertion-ordered association list of stringified fields; the default
`Array.prototype.sort()` comparator orders strings by code unit, which
is modelled as lexicographic comparison of the character lists. -/

/-- Lexicographic code-unit comparison, the order of the default
JavaScript string sort. -/
def charListLe : List Char → List Char → Bool
  | [], _ => true
  | _ :: _, [] => false
  | c :: cs, d :: ds =>
    if c.toNat < d.toNat then true
    else if d.toNat < c.toNat then false
    else charListLe cs ds

/-- String order used by the key sort. -/
def strLe (a b : String) : Prop := charListLe a.data b.data = true

instance : DecidableRel strLe := fun a b =>
  inferInstanceAs (Decidable (charListLe a.data b.data = true))

/-- The canonical signing message of `verifyHmacSignature` (and of
`createSignatureMessage` in `webhookAuth.ts`): drop the `signature`
field, sort the remaining keys ascending, render `key=value`, join
with `&`.  `data[key]` is total for the keys of `data`; the `getD`
default is never reached. -/
def canonicalMessage (payload : List (String × String)) : String :=
  String.intercalate "&"
    ((List.insertionSort strLe
        ((payload.filter (fun kv => kv.1 != "signature")).map Prod.fst)).map
      (fun key => key ++ "=" ++
        (((payload.filter (fun kv => kv.1 != "signature")).lookup key).getD "")))

/-- The Node primitive `crypto.timingSafeEqual` on the byte buffers of
two strings:
throws a `RangeError` when the buffer lengths differ, otherwise
compares the contents (in constant time; extensionally, equality). -/
def timingSafeEqualNode (a b : List Char) : Except String Bool :=
  if a.length = b.length then Except.ok (a == b)
  else Except.error "RangeError: Input buffers must have the same byte length"

/-- `verifyHmacSignature` (`webhookCrypto.ts`): canonicalize the
payload without its `signature` field, compute the expected HMAC hex
digest with the external crypto primitive `hmac secret message`, and
compare with `crypto.timingSafeEqual` — which throws when the provided
signature and the digest differ in length. -/
def verifyHmacSignature (hmac : String → String → String)
    (payload : List (String × String)) (sig secret : String) :
    Except String Bool :=
  timingSafeEqualNode sig.data (hmac secret (canonicalMessage payload)).data

/-- The fields of a stored credential read by
`verifyWebhookSignature`. -/
structure AuthConfig where
  encryptedSecret : Option String

/-- `verifyWebhookSignature` (`webhookAuth.ts`): resolve the
credential, decrypt the stored secret, verify the HMAC; a missing
credential, a missing encrypted secret, a decryption failure, or any
error thrown during verification all yield `false`. -/
def verifyWebhookSignature (hmac : String → String → String)
    (decrypt : String → Except String String) (config : Option AuthConfig)
    (payload : List (String × String)) (sig : String) : Bool :=
  match config with
  | none => false
  | some c =>
    match c.encryptedSecret with
    | none => false
    | some enc =>
      match decrypt enc with
      | .error _ => false
      | .ok secret =>
        match verifyHmacSignature hmac payload sig secret with
        | .error _ => false
        | .ok b => b

/-! ## Credential resolution (`getWebhookByApiKey`) -/

/-- One row of the `webhooks` table as read by credential resolution:
the plaintext `api_key` column and the one-way hash computed by
`hashApiKey` at issuance. -/
structure WebhookRow where
  id : String
  apiKey : String
  apiKeyHash : String
  deriving DecidableEq

/-- `getWebhookByApiKey`: `.from("webhooks").select().eq("api_key",
apiKey).single()` — an equality scan on the plaintext `api_key`
column. -/
def getWebhookByApiKey (db : List WebhookRow) (key : String) :
    Option WebhookRow :=
  db.find? (fun r => r.apiKey == key)

/-- Modelled from the spec: `resolve(publicId)` "indexes storage by
`lookupHash(publicId)`, never by scanning plaintext identifiers" —
lookup by equality on the stored one-way hash of the public
identifier. -/
def resolveByLookupHash (hashFn : String → String) (db : List WebhookRow)
    (publicId : String) : Option WebhookRow :=
  db.find? (fun r => r.apiKeyHash == hashFn publicId)

/-! ### Structural lemmas about the rate limiter -/

theorem rowMatches_windowType {u k : String} {kind : WindowKind} {th : Int}
    {r : RateRow} (h : rowMatches u k kind th r = true) : r.windowType = kind := by
  simp only [rowMatches, Bool.and_eq_true, beq_iff_eq, decide_eq_true_eq] at h
  exact h.1.2

theorem rowMatches_windowStart {u k : String} {kind : WindowKind} {th : Int}
    {r : RateRow} (h : rowMatches u k kind th r = true) : th ≤ r.windowStart := by
  simp only [rowMatches, Bool.and_eq_true, beq_iff_eq, decide_eq_true_eq] at h
  exact h.2

/-- An update of windows of one kind does not change the sublist of rows
of kinds selected by a predicate that excludes that kind. -/
theorem filter_bumpCount {p : WindowKind → Bool} {kind : WindowKind}
    (hp : p kind = false) (rows : List RateRow) (u k : String) (th : Int)
    (c : Nat) :
    (bumpCount rows u k kind th c).filter (fun r => p r.windowType) =
      rows.filter (fun r => p r.windowType) := by
  induction rows with
  | nil => rfl
  | cons r t ih =>
    simp only [bumpCount, List.map_cons, List.filter_cons] at ih ⊢
    by_cases h : rowMatches u k kind th r = true
    · have hw : r.windowType = kind := rowMatches_windowType h
      simp [h, hw, hp, ih]
    · simp only [Bool.not_eq_true] at h
      simp [h, ih]

/-- Inserting a window row of one kind does not change the sublist of
rows of kinds selected by a predicate that excludes that kind. -/
theorem filter_insertRow {p : WindowKind → Bool} {kind : WindowKind}
    (hp : p kind = false) (rows : List RateRow) (u k : String) (now : Int)
    (c : Nat) :
    (rows ++ [(⟨u, k, kind, now, c⟩ : RateRow)]).filter
        (fun r => p r.windowType) =
      rows.filter (fun r => p r.windowType) := by
  simp [List.filter_append, hp]

/-- One loop iteration for one window kind leaves the rows of every
other kind untouched. -/
theorem filter_rateWindowStep (p : WindowKind → Bool) (kind : WindowKind)
    (hp : p kind = false) (L : Nat) (u k : String) (now : Int)
    (rows : List RateRow) :
    ((rateWindowStep L kind u k now rows).2).filter (fun r => p r.windowType) =
      rows.filter (fun r => p r.windowType) := by
  unfold rateWindowStep findActive
  cases hfa : rows.find? (rowMatches u k kind (now - windowDuration kind)) with
  | none =>
    simp only [hfa]
    exact filter_insertRow hp rows u k now 1
  | some existing =>
    simp only [hfa]
    by_cases hlim : L ≤ existing.requestCount
    · simp [hlim]
    · simp only [if_neg hlim]
      exact filter_bumpCount hp rows u k (now - windowDuration kind)
        (existing.requestCount + 1)

/-! ### Staleness: only rows still inside their window affect behaviour

A row is live at time `t` when `t - duration(kind) ≤ window_start`; the
select and update filters can only match live rows, so the verdict of
the limiter at any time `≥ t` is determined by the live rows at `t`.  This
lets long call sequences be analysed window by window. -/

theorem windowDuration_pos (kind : WindowKind) : 0 < windowDuration kind := by
  cases kind <;> decide

theorem eraseStale_eraseStale {t t' : Int} (h : t ≤ t') (rows : List RateRow) :
    eraseStale t' (eraseStale t rows) = eraseStale t' rows := by
  unfold eraseStale
  rw [List.filter_filter]
  apply List.filter_congr
  intro r _
  by_cases hk : t' - windowDuration r.windowType ≤ r.windowStart
  · have : t - windowDuration r.windowType ≤ r.windowStart :=
      le_trans (by omega) hk
    simp [hk, this]
  · simp [hk]

theorem find?_filter_of_imp {α : Type} (l : List α) (p q : α → Bool)
    (h : ∀ a, p a = true → q a = true) :
    (l.filter q).find? p = l.find? p := by
  induction l with
  | nil => rfl
  | cons a t ih =>
    by_cases hq : q a = true
    · rw [List.filter_cons_of_pos hq]
      by_cases hp : p a = true
      · rw [List.find?_cons_of_pos _ hp, List.find?_cons_of_pos _ hp]
      · rw [List.find?_cons_of_neg _ hp, List.find?_cons_of_neg _ hp, ih]
    · have hp : ¬ p a = true := fun hpa => hq (h a hpa)
      rw [List.filter_cons_of_neg (by simpa using hq), List.find?_cons_of_neg _ hp,
        ih]

theorem findActive_eraseStale (rows : List RateRow) (u k : String)
    (kind : WindowKind) (now : Int) :
    findActive (eraseStale now rows) u k kind (now - windowDuration kind) =
      findActive rows u k kind (now - windowDuration kind) := by
  apply find?_filter_of_imp
  intro r hr
  have hw := rowMatches_windowType hr
  have hs := rowMatches_windowStart hr
  simp [hw, hs]

theorem eraseStale_bumpCount (t : Int) (rows : List RateRow) (u k : String)
    (kind : WindowKind) (th : Int) (c : Nat) :
    eraseStale t (bumpCount rows u k kind th c) =
      bumpCount (eraseStale t rows) u k kind th c := by
  unfold eraseStale bumpCount
  rw [List.filter_map]
  congr 1
  apply List.filter_congr
  intro r _
  by_cases hm : rowMatches u k kind th r = true <;> simp [Function.comp, hm]

theorem eraseStale_append_fresh {t now : Int} (h : t ≤ now)
    (rows : List RateRow) (u k : String) (kind : WindowKind) (c : Nat) :
    eraseStale t (rows ++ [(⟨u, k, kind, now, c⟩ : RateRow)]) =
      eraseStale t rows ++ [(⟨u, k, kind, now, c⟩ : RateRow)] := by
  unfold eraseStale
  rw [List.filter_append]
  congr 1
  have hd := windowDuration_pos kind
  have hle : t ≤ now + windowDuration kind := by omega
  simp [sub_le_iff_le_add, hle]

/-- Two tables with the same live rows at time `t` behave identically
in one window iteration at any time `now ≥ t`, and their live rows at
`t` stay equal. -/
theorem rateWindowStep_cong {t now : Int} (ht : t ≤ now) (L : Nat)
    (kind : WindowKind) (u k : String) {S E : List RateRow}
    (hSE : eraseStale t S = eraseStale t E) :
    (rateWindowStep L kind u k now S).1 = (rateWindowStep L kind u k now E).1 ∧
      eraseStale t (rateWindowStep L kind u k now S).2 =
        eraseStale t (rateWindowStep L kind u k now E).2 := by
  have hfa : findActive S u k kind (now - windowDuration kind) =
      findActive E u k kind (now - windowDuration kind) := by
    rw [← findActive_eraseStale S u k kind now,
      ← findActive_eraseStale E u k kind now,
      ← eraseStale_eraseStale ht S, ← eraseStale_eraseStale ht E, hSE]
  unfold rateWindowStep
  rw [hfa]
  cases hr : findActive E u k kind (now - windowDuration kind) with
  | none =>
    refine ⟨by trivial, ?_⟩
    simp only
    rw [eraseStale_append_fresh ht, eraseStale_append_fresh ht, hSE]
  | some existing =>
    by_cases hlim : L ≤ existing.requestCount
    · simp only [if_pos hlim]
      exact ⟨by trivial, hSE⟩
    · simp only [if_neg hlim]
      refine ⟨by trivial, ?_⟩
      rw [eraseStale_bumpCount, eraseStale_bumpCount, hSE]

/-- Two tables with the same live rows at time `t` receive the same
verdict from `checkRateLimit` at any time `now ≥ t`, and their live
rows stay equal. -/
theorem checkRateLimit_cong {t now : Int} (ht : t ≤ now)
    (cfg : RateLimitConfig) (u k : String) {S E : List RateRow}
    (hSE : eraseStale t S = eraseStale t E) :
    (checkRateLimit cfg u k now S).1 = (checkRateLimit cfg u k now E).1 ∧
      eraseStale t (checkRateLimit cfg u k now S).2 =
        eraseStale t (checkRateLimit cfg u k now E).2 := by
  unfold checkRateLimit
  obtain ⟨hb₁, he₁⟩ :=
    rateWindowStep_cong ht (kindLimit cfg .minute) .minute u k (S := S) (E := E) hSE
  cases hS₁ : rateWindowStep (kindLimit cfg .minute) .minute u k now S with
  | mk sb₁ S₁ =>
  cases hE₁ : rateWindowStep (kindLimit cfg .minute) .minute u k now E with
  | mk eb₁ E₁ =>
  rw [hS₁, hE₁] at hb₁ he₁
  simp only at hb₁ he₁
  subst hb₁
  cases sb₁ with
  | false => exact ⟨by trivial, he₁⟩
  | true =>
    dsimp only
    obtain ⟨hb₂, he₂⟩ :=
      rateWindowStep_cong ht (kindLimit cfg .hour) .hour u k he₁
    cases hS₂ : rateWindowStep (kindLimit cfg .hour) .hour u k now S₁ with
    | mk sb₂ S₂ =>
    cases hE₂ : rateWindowStep (kindLimit cfg .hour) .hour u k now E₁ with
    | mk eb₂ E₂ =>
    rw [hS₂, hE₂] at hb₂ he₂
    simp only at hb₂ he₂
    subst hb₂
    cases sb₂ with
    | false => exact ⟨by trivial, he₂⟩
    | true =>
      dsimp only
      obtain ⟨hb₃, he₃⟩ :=
        rateWindowStep_cong ht (kindLimit cfg .day) .day u k he₂
      cases hS₃ : rateWindowStep (kindLimit cfg .day) .day u k now S₂ with
      | mk sb₃ S₃ =>
      cases hE₃ : rateWindowStep (kindLimit cfg .day) .day u k now E₂ with
      | mk eb₃ E₃ =>
      rw [hS₃, hE₃] at hb₃ he₃
      simp only at hb₃ he₃
      subst hb₃
      cases sb₃ with
      | false => exact ⟨by trivial, he₃⟩
      | true => exact ⟨by trivial, he₃⟩

/-- Two tables with the same live rows at time `t` produce the same
verdict sequence on any call schedule whose times are all `≥ t`. -/
theorem runCalls_cong (cfg : RateLimitConfig) (u k : String) {t : Int}
    (ts : List Int) (hts : ∀ s ∈ ts, t ≤ s) {S E : List RateRow}
    (hSE : eraseStale t S = eraseStale t E) :
    (runCalls cfg u k ts S).1 = (runCalls cfg u k ts E).1 ∧
      eraseStale t (runCalls cfg u k ts S).2 =
        eraseStale t (runCalls cfg u k ts E).2 := by
  induction ts generalizing S E with
  | nil => exact ⟨rfl, hSE⟩
  | cons s ts ih =>
    have hs : t ≤ s := hts s (by simp)
    obtain ⟨hb, he⟩ := checkRateLimit_cong hs cfg u k hSE
    have ihr := ih (fun x hx => hts x (by simp [hx])) he
    simp only [runCalls, checkRateLimitOk]
    rw [hb]
    exact ⟨by rw [ihr.1], ihr.2⟩

/-- `runCalls` over a concatenated schedule splits into the two runs. -/
theorem runCalls_append (cfg : RateLimitConfig) (u k : String)
    (ts₁ ts₂ : List Int) (rows : List RateRow) :
    runCalls cfg u k (ts₁ ++ ts₂) rows =
      ((runCalls cfg u k ts₁ rows).1 ++
        (runCalls cfg u k ts₂ (runCalls cfg u k ts₁ rows).2).1,
       (runCalls cfg u k ts₂ (runCalls cfg u k ts₁ rows).2).2) := by
  induction ts₁ generalizing rows with
  | nil => simp [runCalls]
  | cons s ts ih =>
    simp only [List.cons_append, runCalls, List.append_eq, ih]

/-- Composition step used to analyse one epoch of the long rate-limit
scenario: replace the real table by a table with the same live rows,
evaluate the epoch on it, and return the verdicts together with the
live-row summary at the start of the next epoch. -/
theorem epoch_step (cfg : RateLimitConfig) (u k : String)
    (e tNext : Int) (sched : List Int) {S : List RateRow}
    (E Enext : List RateRow) (vs : List Bool)
    (hbound : ∀ s ∈ sched, e ≤ s) (het : e ≤ tNext)
    (hR : eraseStale e S = eraseStale e E)
    (hv : (runCalls cfg u k sched E).1 = vs)
    (hclean : eraseStale tNext (runCalls cfg u k sched E).2 =
      eraseStale tNext Enext) :
    (runCalls cfg u k sched S).1 = vs ∧
      eraseStale tNext (runCalls cfg u k sched S).2 =
        eraseStale tNext Enext := by
  obtain ⟨h₁, h₂⟩ := runCalls_cong cfg u k sched hbound hR
  refine ⟨h₁.trans hv, ?_⟩
  have h₃ : eraseStale tNext (runCalls cfg u k sched S).2 =
      eraseStale tNext (runCalls cfg u k sched E).2 := by
    rw [← eraseStale_eraseStale het (runCalls cfg u k sched S).2,
      ← eraseStale_eraseStale het (runCalls cfg u k sched E).2, h₂]
  exact h₃.trans hclean

theorem runCalls_fst_append (cfg : RateLimitConfig) (u k : String)
    (ts₁ ts₂ : List Int) (rows : List RateRow) :
    (runCalls cfg u k (ts₁ ++ ts₂) rows).1 =
      (runCalls cfg u k ts₁ rows).1 ++
        (runCalls cfg u k ts₂ (runCalls cfg u k ts₁ rows).2).1 := by
  rw [runCalls_append]

set_option maxHeartbeats 16000000 in
set_option maxRecDepth 40000 in
/-- The day scenario: 1000 allowed calls, then denials, analysed one
hour-epoch at a time via `epoch_step`. -/
theorem runCalls_dayTimes :
    (runCalls defaultRateLimits "u" "k" dayTimes []).1 =
      List.replicate 1000 true ++ [false, false] := by
  have e0 := epoch_step defaultRateLimits "u" "k" 0 3660000 (epochSched 0)
      (S := ([] : List RateRow)) [] (dayRowOnly 100) (List.replicate 100 true)
      (by decide) (by decide) rfl (by decide) (by decide)
  have e1 := epoch_step defaultRateLimits "u" "k" 3660000 7320000
      (epochSched 3660000) (dayRowOnly 100) (dayRowOnly 200)
      (List.replicate 100 true)
      (by decide) (by decide) e0.2 (by decide) (by decide)
  have e2 := epoch_step defaultRateLimits "u" "k" 7320000 10980000
      (epochSched 7320000) (dayRowOnly 200) (dayRowOnly 300)
      (List.replicate 100 true)
      (by decide) (by decide) e1.2 (by decide) (by decide)
  have e3 := epoch_step defaultRateLimits "u" "k" 10980000 14640000
      (epochSched 10980000) (dayRowOnly 300) (dayRowOnly 400)
      (List.replicate 100 true)
      (by decide) (by decide) e2.2 (by decide) (by decide)
  have e4 := epoch_step defaultRateLimits "u" "k" 14640000 18300000
      (epochSched 14640000) (dayRowOnly 400) (dayRowOnly 500)
      (List.replicate 100 true)
      (by decide) (by decide) e3.2 (by decide) (by decide)
  have e5 := epoch_step defaultRateLimits "u" "k" 18300000 21960000
      (epochSched 18300000) (dayRowOnly 500) (dayRowOnly 600)
      (List.replicate 100 true)
      (by decide) (by decide) e4.2 (by decide) (by decide)
  have e6 := epoch_step defaultRateLimits "u" "k" 21960000 25620000
      (epochSched 21960000) (dayRowOnly 600) (dayRowOnly 700)
      (List.replicate 100 true)
      (by decide) (by decide) e5.2 (by decide) (by decide)
  have e7 := epoch_step defaultRateLimits "u" "k" 25620000 29280000
      (epochSched 25620000) (dayRowOnly 700) (dayRowOnly 800)
      (List.replicate 100 true)
      (by decide) (by decide) e6.2 (by decide) (by decide)
  have e8 := epoch_step defaultRateLimits "u" "k" 29280000 32940000
      (epochSched 29280000) (dayRowOnly 800) (dayRowOnly 900)
      (List.replicate 100 true)
      (by decide) (by decide) e7.2 (by decide) (by decide)
  have e9 := epoch_step defaultRateLimits "u" "k" 32940000 36600000
      (epochSched 32940000) (dayRowOnly 900) (dayRowOnly 1000)
      (List.replicate 100 true)
      (by decide) (by decide) e8.2 (by decide) (by decide)
  have ef := epoch_step defaultRateLimits "u" "k" 36600000 36600000
      rlFinalTimes (dayRowOnly 1000)
      ((runCalls defaultRateLimits "u" "k" rlFinalTimes
        (dayRowOnly 1000)).2)
      [false, false]
      (by decide) (by decide) e9.2 (by decide) rfl
  unfold dayTimes
  rw [runCalls_fst_append, e0.1, runCalls_fst_append, e1.1,
    runCalls_fst_append, e2.1, runCalls_fst_append, e3.1,
    runCalls_fst_append, e4.1, runCalls_fst_append, e5.1,
    runCalls_fst_append, e6.1, runCalls_fst_append, e7.1,
    runCalls_fst_append, e8.1, runCalls_fst_append, e9.1, ef.1]
  decide

/-- A denying window iteration leaves the table unchanged. -/
theorem rateWindowStep_denied (L : Nat) (kind : WindowKind) (u k : String)
    (now : Int) (rows : List RateRow)
    (h : (rateWindowStep L kind u k now rows).1 = false) :
    (rateWindowStep L kind u k now rows).2 = rows := by
  unfold rateWindowStep at h ⊢
  cases hfa : findActive rows u k kind (now - windowDuration kind) with
  | none =>
    rw [hfa] at h
    simp at h
  | some ex =>
    rw [hfa] at h
    dsimp only at h ⊢
    by_cases hlim : L ≤ ex.requestCount
    · simp [hlim]
    · rw [if_neg hlim] at h
      simp at h

/-- C5 (amended): a denial at window kind `w` leaves every row of kind
`w` and of coarser kinds exactly as it was; only the windows of finer
kinds, checked before `w`, can already have been incremented or
created by the denied call. -/
theorem c5_denial_keeps_denying_and_coarser_windows (cfg : RateLimitConfig)
    (u k : String) (now : Int) (rows : List RateRow) (w : WindowKind)
    (hw : (checkRateLimit cfg u k now rows).1 = some w) :
    ((checkRateLimit cfg u k now rows).2).filter
        (fun r => decide (kindIdx w ≤ kindIdx r.windowType)) =
      rows.filter (fun r => decide (kindIdx w ≤ kindIdx r.windowType)) := by
  unfold checkRateLimit at hw ⊢
  cases h₁ : rateWindowStep (kindLimit cfg .minute) .minute u k now rows with
  | mk b₁ r₁ =>
  rw [h₁] at hw
  cases b₁ with
  | false =>
    dsimp only at hw ⊢
    have hr₁ : r₁ = rows := by
      have hd := rateWindowStep_denied (kindLimit cfg .minute) .minute u k
        now rows (by rw [h₁])
      rw [h₁] at hd
      exact hd
    rw [hr₁]
  | true =>
    dsimp only at hw ⊢
    cases h₂ : rateWindowStep (kindLimit cfg .hour) .hour u k now r₁ with
    | mk b₂ r₂ =>
    rw [h₂] at hw
    cases b₂ with
    | false =>
      dsimp only at hw ⊢
      have hwh : w = WindowKind.hour := (Option.some.inj hw).symm
      have hr₂ : r₂ = r₁ := by
        have hd := rateWindowStep_denied (kindLimit cfg .hour) .hour u k
          now r₁ (by rw [h₂])
        rw [h₂] at hd
        exact hd
      have hstep₁ := filter_rateWindowStep
        (fun x => decide (kindIdx w ≤ kindIdx x)) .minute
        (by subst hwh; decide) (kindLimit cfg .minute) u k now rows
      rw [h₁] at hstep₁
      rw [hr₂]
      exact hstep₁
    | true =>
      dsimp only at hw ⊢
      cases h₃ : rateWindowStep (kindLimit cfg .day) .day u k now r₂ with
      | mk b₃ r₃ =>
      rw [h₃] at hw
      cases b₃ with
      | false =>
        dsimp only at hw ⊢
        have hwd : w = WindowKind.day := (Option.some.inj hw).symm
        have hr₃ : r₃ = r₂ := by
          have hd := rateWindowStep_denied (kindLimit cfg .day) .day u k
            now r₂ (by rw [h₃])
          rw [h₃] at hd
          exact hd
        have hstep₁ := filter_rateWindowStep
          (fun x => decide (kindIdx w ≤ kindIdx x)) .minute
          (by subst hwd; decide) (kindLimit cfg .minute) u k now rows
        have hstep₂ := filter_rateWindowStep
          (fun x => decide (kindIdx w ≤ kindIdx x)) .hour
          (by subst hwd; decide) (kindLimit cfg .hour) u k now r₁
        rw [h₁] at hstep₁
        rw [h₂] at hstep₂
        rw [hr₃]
        exact hstep₂.trans hstep₁
      | true =>
        simp at hw

set_option maxHeartbeats 4000000 in
set_option maxRecDepth 40000 in
/-- C4: with the default limits (10/minute, 100/hour, 1000/day),
calling `checkRateLimit` for the same (account, credential) pair more
than `limit(kind)` times within one window of each kind — on schedules
on which the other two windows never deny — returns `Allowed` exactly
`limit(kind)` times and `Denied` on every further call inside that
window, for each of the three window kinds. -/
theorem c4_rate_limit_three_windows :
    ((runCalls defaultRateLimits "u" "k" minuteTimes []).1 =
      List.replicate 10 true ++ List.replicate 3 false) ∧
    ((runCalls defaultRateLimits "u" "k" hourTimes []).1 =
      List.replicate 100 true ++ [false, false]) ∧
    ((runCalls defaultRateLimits "u" "k" dayTimes []).1 =
      List.replicate 1000 true ++ [false, false]) :=
  ⟨by decide, by decide, runCalls_dayTimes⟩

/-- C5 counterexample: with limits 2/minute and 1/hour, the second call
61 s after the first is denied by the hour window, yet the same call has
already created a fresh minute window row: a denial does not leave the
rate-limit state unchanged. -/
theorem c5_counterexample_denial_mutates_state :
    ((checkRateLimit ⟨2, 1, 1000⟩ "u" "k" 61000
        (checkRateLimit ⟨2, 1, 1000⟩ "u" "k" 0 []).2).1 =
      some WindowKind.hour) ∧
    (checkRateLimit ⟨2, 1, 1000⟩ "u" "k" 61000
        (checkRateLimit ⟨2, 1, 1000⟩ "u" "k" 0 []).2).2 ≠
      (checkRateLimit ⟨2, 1, 1000⟩ "u" "k" 0 []).2 := by
  decide

/-- Witness for the amended C5 theorem at a concrete denied call. -/
theorem c5_amended_witness :
    ((checkRateLimit ⟨2, 1, 1000⟩ "u" "k" 61000
        [⟨"u", "k", .minute, 0, 1⟩, ⟨"u", "k", .hour, 0, 1⟩,
          ⟨"u", "k", .day, 0, 1⟩]).2).filter
        (fun r => decide (kindIdx .hour ≤ kindIdx r.windowType)) =
      ([⟨"u", "k", .minute, 0, 1⟩, ⟨"u", "k", .hour, 0, 1⟩,
          ⟨"u", "k", .day, 0, 1⟩] : List RateRow).filter
        (fun r => decide (kindIdx .hour ≤ kindIdx r.windowType)) :=
  c5_denial_keeps_denying_and_coarser_windows ⟨2, 1, 1000⟩ "u" "k" 61000
    [⟨"u", "k", .minute, 0, 1⟩, ⟨"u", "k", .hour, 0, 1⟩,
      ⟨"u", "k", .day, 0, 1⟩] .hour (by decide)

/-! ### Gateway claims -/

/-- C6 (amended): a `webhook_logs` record is written exactly when the
order is handed to the executor — one record then, none otherwise; in
particular every request denied by a pipeline stage writes no record,
and a record is only ever attributed to a resolved credential. -/
theorem c6_log_exactly_on_execution (env : GatewayEnv) (p : WebhookPayload)
    (now : Int) :
    (postTradingView env p now).logs.length =
        (if (postTradingView env p now).executorCalled then 1 else 0) ∧
      (!(postTradingView env p now).executorCalled ||
        env.config.isSome) = true := by
  unfold postTradingView
  repeat' split
  all_goals first
  | exact ⟨rfl, rfl⟩
  | simp_all

/-- C6 counterexample: a request whose API key resolves to a stored
(disabled) credential is denied with 403 and no `webhook_logs` record
is written, although the claim requires a `failed` record. -/
theorem c6_counterexample_denied_request_not_logged :
    ((postTradingView
        ⟨some ⟨"wh1", "u1", false, [], 1000, 10000, false⟩, true, true,
          .ok "oid"⟩
        ⟨"buy", "BTC", some 1, some 10, none, none, none, "key", "sig",
          some 0⟩ 0).status = 403) ∧
    ((postTradingView
        ⟨some ⟨"wh1", "u1", false, [], 1000, 10000, false⟩, true, true,
          .ok "oid"⟩
        ⟨"buy", "BTC", some 1, some 10, none, none, none, "key", "sig",
          some 0⟩ 0).logs = []) ∧
    (some (⟨"wh1", "u1", false, [], 1000, 10000, false⟩ : RouteConfig)).isSome
      = true := by
  decide

/-- C1: the pipeline contains no daily-limit stage.  An enabled
credential with `dailyLimit = 10000` receives an order of notional
15000 (no prior usage, within `maxOrderSize`); the handler executes it
and returns 200 instead of `Denied(dailyLimitExceeded)` with 403.  The
`checkDailyLimit` helper of the repository itself — never called by
the handler — also reports the state as within limit, because it compares
only past usage and ignores the candidate order. -/
theorem c1_daily_limit_not_enforced :
    (orderValue ⟨"buy", "BTC", some 1, some 15000, none, none, none,
        "key", "sig", some 0⟩ >
      (⟨"wh1", "u1", true, [], 20000, 10000, false⟩ : RouteConfig).dailyLimit) ∧
    ((postTradingView
        ⟨some ⟨"wh1", "u1", true, [], 20000, 10000, false⟩, true, true,
          .ok "oid"⟩
        ⟨"buy", "BTC", some 1, some 15000, none, none, none, "key", "sig",
          some 0⟩ 0).status = 200) ∧
    ((postTradingView
        ⟨some ⟨"wh1", "u1", true, [], 20000, 10000, false⟩, true, true,
          .ok "oid"⟩
        ⟨"buy", "BTC", some 1, some 15000, none, none, none, "key", "sig",
          some 0⟩ 0).executorCalled = true) ∧
    ((checkDailyLimit 10000 [] 0).1 = true) := by
  decide

/-- C2 counterexample: a price-less order with quantity 50000 against
`maxOrderSize = 1000` is not denied `orderTooLarge`; it passes the size
check and is executed with status 200. -/
theorem c2_counterexample_priceless_order_passes :
    ((⟨"buy", "BTC", some 50000, none, none, none, none, "key", "sig",
        some 0⟩ : WebhookPayload).price = none) ∧
    ((⟨"buy", "BTC", some 50000, none, none, none, none, "key", "sig",
        some 0⟩ : WebhookPayload).quantity.getD 0 >
      (⟨"wh2", "u2", true, [], 1000, 10000, false⟩ : RouteConfig).maxOrderSize) ∧
    ((postTradingView
        ⟨some ⟨"wh2", "u2", true, [], 1000, 10000, false⟩, true, true,
          .ok "oid"⟩
        ⟨"buy", "BTC", some 50000, none, none, none, none, "key", "sig",
          some 0⟩ 0).status = 200) ∧
    ((postTradingView
        ⟨some ⟨"wh2", "u2", true, [], 1000, 10000, false⟩, true, true,
          .ok "oid"⟩
        ⟨"buy", "BTC", some 50000, none, none, none, none, "key", "sig",
          some 0⟩ 0).executorCalled = true) := by
  decide

/-- C2 (amended): when `price` is absent, `orderValue` is
`quantity * 0 = 0`, so for any configuration with a nonnegative
`maxOrderSize` the per-order size check never denies, whatever the
quantity — the caller-supplied quantity is not compared at all. -/
theorem c2_priceless_order_size_check (c : RouteConfig) (p : WebhookPayload)
    (hp : p.price = none) (hm : 0 ≤ c.maxOrderSize) :
    orderValue p = 0 ∧ sizeCheckDenies c p = false := by
  have hv : orderValue p = 0 := by
    simp [orderValue, hp]
  refine ⟨hv, ?_⟩
  simp only [sizeCheckDenies, hv, decide_eq_false_iff_not]
  rintro ⟨h0, hlt⟩
  omega

/-- Witness for the amended C2 theorem at a concrete priceless order. -/
theorem c2_priceless_order_size_check_witness :
    orderValue ⟨"buy", "BTC", some 50000, none, none, none, none, "key",
        "sig", some 0⟩ = 0 ∧
      sizeCheckDenies ⟨"wh2", "u2", true, [], 1000, 10000, false⟩
        ⟨"buy", "BTC", some 50000, none, none, none, none, "key", "sig",
          some 0⟩ = false :=
  c2_priceless_order_size_check ⟨"wh2", "u2", true, [], 1000, 10000, false⟩
    ⟨"buy", "BTC", some 50000, none, none, none, none, "key", "sig", some 0⟩
    rfl (by decide)

/-- C3: a request with no `timestamp` field is not rejected by the
freshness stage — `undefined * 1000` is `NaN` and `NaN > window` is
`false` — so with a valid signature the request reaches the executor
and returns 200, although the claim requires the freshness stage to
fail closed. -/
theorem c3_missing_timestamp_passes_freshness :
    (tsStale none 1000000000 = false) ∧
    ((postTradingView
        ⟨some ⟨"wh3", "u3", true, [], 1000, 10000, false⟩, true, true,
          .ok "oid"⟩
        ⟨"buy", "BTC", some 1, some 10, none, none, none, "key", "sig",
          none⟩ 1000000000).status = 200) ∧
    ((postTradingView
        ⟨some ⟨"wh3", "u3", true, [], 1000, 10000, false⟩, true, true,
          .ok "oid"⟩
        ⟨"buy", "BTC", some 1, some 10, none, none, none, "key", "sig",
          none⟩ 1000000000).executorCalled = true) := by
  decide

/-- C9: a negative quantity is truthy in JavaScript, so the
required-field check of the handler does not reject it and the order
reaches the executor with status 200 — while the
`validateWebhookPayload` function of the repository (never called by
the handler) classifies the same payload as invalid. -/
theorem c9_negative_quantity_executes :
    (validateWebhookPayload ⟨"buy", "BTC", some (-5), some 100, none, none,
        none, "key", "sig", some 0⟩ = false) ∧
    ((postTradingView
        ⟨some ⟨"wh9", "u9", true, [], 1000, 10000, false⟩, true, true,
          .ok "oid"⟩
        ⟨"buy", "BTC", some (-5), some 100, none, none, none, "key", "sig",
          some 0⟩ 0).status = 200) ∧
    ((postTradingView
        ⟨some ⟨"wh9", "u9", true, [], 1000, 10000, false⟩, true, true,
          .ok "oid"⟩
        ⟨"buy", "BTC", some (-5), some 100, none, none, none, "key", "sig",
          some 0⟩ 0).executorCalled = true) := by
  decide

theorem charListLe_total : ∀ x y : List Char,
    charListLe x y = true ∨ charListLe y x = true := by
  intro x
  induction x with
  | nil => intro y; left; rfl
  | cons c cs ih =>
    intro y
    cases y with
    | nil => right; rfl
    | cons d ds =>
      rcases Nat.lt_trichotomy c.toNat d.toNat with h | h | h
      · left
        simp [charListLe, h]
      · rcases ih ds with h2 | h2
        · left
          simp [charListLe, h, h2]
        · right
          simp [charListLe, h.symm, h2]
      · right
        simp [charListLe, h]

theorem charListLe_trans : ∀ x y z : List Char, charListLe x y = true →
    charListLe y z = true → charListLe x z = true := by
  intro x
  induction x with
  | nil => intro y z _ _; rfl
  | cons c cs ih =>
    intro y z hxy hyz
    cases y with
    | nil => simp [charListLe] at hxy
    | cons d ds =>
      cases z with
      | nil => simp [charListLe] at hyz
      | cons e es =>
        simp only [charListLe] at hxy hyz ⊢
        by_cases h1 : c.toNat < d.toNat <;>
          by_cases h2 : d.toNat < e.toNat <;>
          by_cases h3 : d.toNat < c.toNat <;>
          by_cases h4 : e.toNat < d.toNat <;>
          by_cases h5 : c.toNat < e.toNat <;>
          by_cases h6 : e.toNat < c.toNat <;>
          simp_all <;>
          first
          | omega
          | exact ih ds es hxy hyz
          | exact Or.inr (ih ds es hxy hyz)

theorem charListLe_antisymm : ∀ x y : List Char, charListLe x y = true →
    charListLe y x = true → x = y := by
  intro x
  induction x with
  | nil =>
    intro y _ hyx
    cases y with
    | nil => rfl
    | cons d ds => simp [charListLe] at hyx
  | cons c cs ih =>
    intro y hxy hyx
    cases y with
    | nil => simp [charListLe] at hxy
    | cons d ds =>
      simp only [charListLe] at hxy hyx
      by_cases h1 : c.toNat < d.toNat
      · simp [h1, show ¬ d.toNat < c.toNat by omega] at hyx
      · by_cases h2 : d.toNat < c.toNat
        · simp [h1, h2] at hxy
        · have heq : c.toNat = d.toNat := by omega
          have hcd : c = d := Char.ext (UInt32.toNat.inj heq)
          simp only [h1, h2, if_false] at hxy hyx
          rw [hcd, ih ds (by simpa [hcd] using hxy) (by simpa [hcd] using hyx)]


/-- `Object` key access is invariant under reordering an association
list with distinct keys. -/
theorem lookup_perm_of_nodup_keys :
    ∀ {l₁ l₂ : List (String × String)}, l₁.Perm l₂ →
      (l₁.map Prod.fst).Nodup → ∀ a, l₁.lookup a = l₂.lookup a := by
  intro l₁ l₂ h
  induction h with
  | nil => exact fun _ _ => rfl
  | cons x h ih =>
    intro nd a
    rcases x with ⟨k, v⟩
    rw [List.lookup_cons, List.lookup_cons]
    cases hak : a == k with
    | true => rfl
    | false =>
      simp only [List.map_cons, List.nodup_cons] at nd
      exact ih nd.2 a
  | swap x y t =>
    intro nd a
    rcases x with ⟨kx, vx⟩
    rcases y with ⟨ky, vy⟩
    simp only [List.map_cons, List.nodup_cons, List.mem_cons] at nd
    rw [List.lookup_cons, List.lookup_cons, List.lookup_cons,
      List.lookup_cons]
    cases haky : a == ky with
    | true =>
      cases hakx : a == kx with
      | true =>
        have hk : ky = kx :=
          ((beq_iff_eq).mp haky).symm.trans ((beq_iff_eq).mp hakx)
        exact absurd (Or.inl hk) nd.1
      | false => rfl
    | false =>
      cases hakx : a == kx with
      | true => rfl
      | false => rfl
  | trans h₁ h₂ ih₁ ih₂ =>
    intro nd a
    exact (ih₁ nd a).trans
      (ih₂ (((h₁.map Prod.fst).nodup_iff).mp nd) a)

/-- C8: canonicalization is order-independent — two payloads with the
same non-signature key/value pairs (distinct keys) in different
insertion orders canonicalize to the same string, so sender and
verifier compute the same HMAC input. -/
theorem c8_canonicalMessage_order_independent
    (p₁ p₂ : List (String × String))
    (hperm : (p₁.filter (fun kv => kv.1 != "signature")).Perm
      (p₂.filter (fun kv => kv.1 != "signature")))
    (hnd : ((p₁.filter (fun kv => kv.1 != "signature")).map Prod.fst).Nodup) :
    canonicalMessage p₁ = canonicalMessage p₂ := by
  haveI : IsTotal String strLe := ⟨fun a b => charListLe_total a.data b.data⟩
  haveI : IsTrans String strLe :=
    ⟨fun a b c => charListLe_trans a.data b.data c.data⟩
  haveI : IsAntisymm String strLe := ⟨fun a b h1 h2 => by
    cases a with
    | mk la =>
      cases b with
      | mk lb =>
        have := charListLe_antisymm la lb h1 h2
        rw [this]⟩
  unfold canonicalMessage
  have hk : ((p₁.filter (fun kv => kv.1 != "signature")).map Prod.fst).Perm
      ((p₂.filter (fun kv => kv.1 != "signature")).map Prod.fst) :=
    hperm.map Prod.fst
  have hsort : List.insertionSort strLe
      ((p₁.filter (fun kv => kv.1 != "signature")).map Prod.fst) =
      List.insertionSort strLe
        ((p₂.filter (fun kv => kv.1 != "signature")).map Prod.fst) :=
    List.eq_of_perm_of_sorted
      (((List.perm_insertionSort strLe _).trans hk).trans
        (List.perm_insertionSort strLe _).symm)
      (List.sorted_insertionSort strLe _)
      (List.sorted_insertionSort strLe _)
  rw [hsort]
  congr 1
  apply List.map_congr_left
  intro a _
  rw [lookup_perm_of_nodup_keys hperm hnd a]

/-- Witness for C8: the same two key/value pairs in the two insertion
orders — and two different signature fields — canonicalize equally. -/
theorem c8_witness :
    canonicalMessage [("b", "2"), ("a", "1"), ("signature", "s1")] =
      canonicalMessage [("a", "1"), ("b", "2"), ("signature", "s2")] :=
  c8_canonicalMessage_order_independent
    [("b", "2"), ("a", "1"), ("signature", "s1")]
    [("a", "1"), ("b", "2"), ("signature", "s2")]
    (by decide) (by decide)

/-- C7 counterexample: with a digest of the usual 64 hex characters and
a 3-character provided signature, `verifyHmacSignature` throws (the
RangeError of `crypto.timingSafeEqual`) instead of returning
`false`. -/
theorem c7_counterexample_length_mismatch_throws :
    verifyHmacSignature (fun _ _ => String.mk (List.replicate 64 'a'))
        [("action", "buy")] "abc" "secret" =
      Except.error "RangeError: Input buffers must have the same byte length" := by
  rfl

/-- C7 (amended): whenever the provided signature and the expected
digest differ in length, `verifyHmacSignature` throws rather than
returning `false`; the caller `verifyWebhookSignature` catches the
error and returns `false`, so verification at the `webhookAuth` level
never throws. -/
theorem c7_length_mismatch_throws_and_is_caught
    (hmac : String → String → String)
    (decrypt : String → Except String String) (enc secret : String)
    (payload : List (String × String)) (sig : String)
    (hlen : sig.length ≠ (hmac secret (canonicalMessage payload)).length)
    (hdec : decrypt enc = Except.ok secret) :
    verifyHmacSignature hmac payload sig secret =
        Except.error "RangeError: Input buffers must have the same byte length" ∧
      verifyWebhookSignature hmac decrypt (some ⟨some enc⟩) payload sig =
        false := by
  have h1 : verifyHmacSignature hmac payload sig secret =
      Except.error "RangeError: Input buffers must have the same byte length" := by
    unfold verifyHmacSignature timingSafeEqualNode
    rw [if_neg (show ¬ sig.data.length =
      (hmac secret (canonicalMessage payload)).data.length from
      fun hh => hlen hh)]
  refine ⟨h1, ?_⟩
  simp only [verifyWebhookSignature, hdec, h1]

/-- Witness for the amended C7 theorem at a concrete length
mismatch. -/
theorem c7_length_mismatch_witness :
    verifyHmacSignature (fun _ _ => String.mk (List.replicate 64 'a'))
        [("action", "buy")] "ab" "sec" =
        Except.error "RangeError: Input buffers must have the same byte length" ∧
      verifyWebhookSignature (fun _ _ => String.mk (List.replicate 64 'a'))
        (fun _ => Except.ok "sec") (some ⟨some "enc"⟩) [("action", "buy")]
        "ab" = false :=
  c7_length_mismatch_throws_and_is_caught
    (fun _ _ => String.mk (List.replicate 64 'a'))
    (fun _ => Except.ok "sec") "enc" "sec" [("action", "buy")] "ab"
    (by decide) rfl

/-- C10 counterexample: a row whose stored hash column is not the
lookup hash of its key (as for legacy rows, whose `api_secret_hash` is
a bcrypt hash of the secret) is still found by `getWebhookByApiKey`
through its plaintext `api_key`, while the hash-indexed resolver of
the spec finds nothing. -/
theorem c10_counterexample_lookup_ignores_hash :
    (getWebhookByApiKey [⟨"wh1", "k1", "legacy-hash"⟩] "k1" =
      some ⟨"wh1", "k1", "legacy-hash"⟩) ∧
    ((fun s => String.append "#" s) "k1" ≠ "legacy-hash") ∧
    (resolveByLookupHash (fun s => String.append "#" s)
      [⟨"wh1", "k1", "legacy-hash"⟩] "k1" = none) := by
  decide

/-- C10 (amended): credential resolution matches the stored plaintext
`api_key` column by equality — any credential it returns has `api_key`
equal to the presented identifier; the lookup hash plays no part. -/
theorem c10_resolution_matches_plaintext_key (db : List WebhookRow)
    (key : String) (r : WebhookRow)
    (h : getWebhookByApiKey db key = some r) : r.apiKey = key := by
  unfold getWebhookByApiKey at h
  have := List.find?_some h
  simpa [beq_iff_eq] using this

/-- Witness for the amended C10 theorem at a concrete store. -/
theorem c10_resolution_witness :
    (⟨"wh1", "k1", "h1"⟩ : WebhookRow).apiKey = "k1" :=
  c10_resolution_matches_plaintext_key [⟨"wh1", "k1", "h1"⟩] "k1"
    ⟨"wh1", "k1", "h1"⟩ (by decide)
